import Mathlib

/-! Verification development for the Chrome-Record extension.

The definitions below are a shallow embedding of the transcoding utilities in
src/popup/utils/samIntegration.ts and of the capture-session coordinator in
src/background/background.ts.  Audio samples are modelled as rationals
(the float math of the source is modelled exactly over ℚ), machine integers as
ℕ/ℤ, and Web Audio AudioBuffer objects as a record of sample rate, frame
count and per-channel sample lists.  Fallible code returns Except/Option.
-/

namespace ChromeRecord

/-- Model of a Web Audio AudioBuffer: a sample rate in Hz, a frame count
(the buffer's length property), and one sample list per channel.  Buffers
created by the code always carry channel lists of exactly length frames;
AudioContext.createBuffer zero-fills them. -/
structure AudioBuffer where
  sampleRate : ℕ
  length : ℕ
  channels : List (List ℚ)
deriving DecidableEq

/-- numberOfChannels property of an AudioBuffer. -/
def AudioBuffer.numberOfChannels (b : AudioBuffer) : ℕ := b.channels.length

/-- getChannelData: the sample array of channel c (empty when out of range). -/
def AudioBuffer.getChannelData (b : AudioBuffer) (c : ℕ) : List ℚ := b.channels.getD c []

/-- Reading a Float32Array at a nonnegative index; out-of-range reads yield 0.
(The source never reads out of range on the inputs the claims quantify over.) -/
def sampleAt (ch : List ℚ) (i : ℕ) : ℚ := ch.getD i 0

/-- Reading a Float32Array at a possibly negative JS index.  An actual negative
read would produce undefined/NaN; the model returns 0 and every theorem that
could reach this case carries a nonnegativity hypothesis. -/
def sampleAtZ (ch : List ℚ) (i : ℤ) : ℚ := if 0 ≤ i then sampleAt ch i.toNat else 0

/-- AudioContext.createBuffer: n zero-filled channels of the given frame
count.  The API throws NotSupportedError for a zero frame count; that error
path is modelled where a zero count is reachable (resampleAudioBuffer, whose
rounding can compute 0).  The other call sites cannot reach it: cropAudioBlob
guards newLength against 0 before creating, and convertChannels and
normalizeAudioBuffer pass through the frame count of a decoded source buffer,
which is positive. -/
def createBuffer (numberOfChannels len rate : ℕ) : AudioBuffer :=
  { sampleRate := rate
    length := len
    channels := List.replicate numberOfChannels (List.replicate len 0) }

/-- JS Math.round: round half toward positive infinity. -/
def jround (x : ℚ) : ℤ := ⌊x + 1/2⌋

/-- JS number-to-integer conversion (Int16Array/Int32Array element assignment):
truncation toward zero. -/
def jtrunc (x : ℚ) : ℤ := if x < 0 then ⌈x⌉ else ⌊x⌋

/-- resampleAudioBuffer (samIntegration.ts lines 271-310): linear-interpolation
resampling to a target rate.  Identity when the rates already match; otherwise
the new frame count is Math.round(length / (sourceRate / targetRate)).  When
that count is zero the call to AudioContext.createBuffer throws
NotSupportedError (modelled as an error result); otherwise each output sample
linearly interpolates the two neighbouring source samples. -/
def resampleAudioBuffer (b : AudioBuffer) (targetSampleRate : ℕ) :
    Except String AudioBuffer :=
  if b.sampleRate = targetSampleRate then .ok b
  else
    let r : ℚ := (b.sampleRate : ℚ) / (targetSampleRate : ℚ)
    let newLength : ℕ := (jround ((b.length : ℚ) / r)).toNat
    if newLength = 0 then .error "NotSupportedError"
    else
      .ok { sampleRate := targetSampleRate
            length := newLength
            channels := b.channels.map fun src =>
              (List.range newLength).map fun (i : ℕ) =>
                let sourceIndex : ℚ := (i : ℚ) * r
                let index : ℤ := ⌊sourceIndex⌋
                let fraction : ℚ := sourceIndex - (index : ℚ)
                if index + 1 < (b.length : ℤ) then
                  sampleAt src index.toNat * (1 - fraction) +
                    sampleAt src (index.toNat + 1) * fraction
                else
                  sampleAt src (min index.toNat (b.length - 1)) }

/-- convertChannels (samIntegration.ts lines 315-352): identity when the channel
counts match; stereo-to-mono averages, mono-to-stereo duplicates; any other
mismatched pair leaves the freshly created zero-filled buffer untouched. -/
def convertChannels (b : AudioBuffer) (targetChannels : ℕ) : AudioBuffer :=
  if b.numberOfChannels = targetChannels then b
  else if targetChannels = 1 ∧ b.numberOfChannels = 2 then
    { sampleRate := b.sampleRate
      length := b.length
      channels := [(List.range b.length).map fun i =>
        (sampleAt (b.getChannelData 0) i + sampleAt (b.getChannelData 1) i) / 2] }
  else if targetChannels = 2 ∧ b.numberOfChannels = 1 then
    { sampleRate := b.sampleRate
      length := b.length
      channels := [(List.range b.length).map fun i => sampleAt (b.getChannelData 0) i,
                   (List.range b.length).map fun i => sampleAt (b.getChannelData 0) i] }
  else
    createBuffer targetChannels b.length b.sampleRate

/-- Absolute values of all samples scanned by the normalizer's peak loop
(channel-major, indices 0 ≤ i < length, exactly the loops of lines 366-375). -/
def channelAbsList (b : AudioBuffer) : List ℚ :=
  (b.channels.map fun ch => (List.range b.length).map fun i => |sampleAt ch i|).flatten

/-- Peak value found by normalizeAudioBuffer: running maximum, starting at 0. -/
def bufferPeak (b : AudioBuffer) : ℚ := (channelAbsList b).foldl max 0

/-- Default target peak of normalizeAudioBuffer (0.95, about -1 dBFS). -/
def defaultTargetPeak : ℚ := 95/100

/-- normalizeAudioBuffer (samIntegration.ts lines 357-400): no-op when the peak
is 0 or already exactly the target; otherwise scales every sample by
targetPeak / maxPeak into a fresh buffer. -/
def normalizeAudioBuffer (b : AudioBuffer) (targetPeak : ℚ) : AudioBuffer :=
  let maxPeak := bufferPeak b
  if maxPeak = 0 ∨ maxPeak = targetPeak then b
  else
    let gain := targetPeak / maxPeak
    { sampleRate := b.sampleRate
      length := b.length
      channels := b.channels.map fun src =>
        (List.range b.length).map fun i => sampleAt src i * gain }

/-- Result of cropAudioBlob: either the original payload returned unchanged, or
a freshly built cropped buffer (which the source then encodes via
audioBufferToWav; the encoding step is modelled separately). -/
inductive CropResult where
  | original : CropResult
  | cropped : AudioBuffer → CropResult
deriving DecidableEq

/-- cropAudioBlob (samIntegration.ts lines 517-555), modelled on the decoded
buffer: start/end sample indices are Math.floor(time * sampleRate); when the
range is empty or starts at/after the buffer length the original payload is
returned unchanged; otherwise each output frame j copies source frame
startSample + j when that is within the channel data, else stays zero. -/
def cropAudioBuffer (b : AudioBuffer) (startTime endTime : ℚ) : CropResult :=
  let startSample : ℤ := ⌊startTime * (b.sampleRate : ℚ)⌋
  let endSample : ℤ := ⌊endTime * (b.sampleRate : ℚ)⌋
  let newLength : ℤ := max 0 (endSample - startSample)
  if newLength = 0 ∨ (b.length : ℤ) ≤ startSample then .original
  else
    .cropped
      { sampleRate := b.sampleRate
        length := newLength.toNat
        channels := b.channels.map fun src =>
          (List.range newLength.toNat).map fun (j : ℕ) =>
            if startSample + (j : ℤ) < (src.length : ℤ) then sampleAtZ src (startSample + (j : ℤ))
            else 0 }

/-- Clamp of a float sample to [-1, 1] (Math.max(-1, Math.min(1, s))). -/
def clampUnit (x : ℚ) : ℚ := max (-1) (min 1 x)

/-- 16-bit PCM quantizer of the WAV encoder (samIntegration.ts lines 426-427):
clamp to [-1, 1], scale asymmetrically by 32768 for negative samples and 32767
otherwise, then truncate on Int16Array assignment. -/
def wavQuant16 (x : ℚ) : ℤ :=
  let s := clampUnit x
  jtrunc (if s < 0 then s * 32768 else s * 32767)

/-- 24-bit PCM quantizer of the WAV encoder (lines 434-436): clamp, scale
asymmetrically by 2^23 / 2^23 - 1, then Math.round. -/
def wavQuant24 (x : ℚ) : ℤ :=
  let s := clampUnit x
  jround (if s < 0 then s * 8388608 else s * 8388607)

/-- 32-bit PCM quantizer of the WAV encoder (lines 447-448): clamp, scale
asymmetrically by 2^31 / 2^31 - 1, then truncate on Int32Array assignment. -/
def wavQuant32 (x : ℚ) : ℤ :=
  let s := clampUnit x
  jtrunc (if s < 0 then s * 2147483648 else s * 2147483647)

/-- 16-bit PCM quantizer of the MP3 encoder (convertToMp3, samIntegration.ts
lines 643-644): scale by 32768 regardless of sign, clamp the scaled value to
[-32768, 32767], then truncate on Int16Array assignment. -/
def mp3Quant16 (x : ℚ) : ℤ :=
  jtrunc (max (-32768) (min 32767 (x * 32768)))

/-- Interleaved sample stream of the WAV encoder (lines 411-416): position
i * numberOfChannels + channel holds channel[i]. -/
def interleave (b : AudioBuffer) : List ℚ :=
  (List.range (b.length * b.numberOfChannels)).map fun p =>
    sampleAt (b.getChannelData (p % b.numberOfChannels)) (p / b.numberOfChannels)

/-- Little-endian bytes of a 16-bit value. -/
def u16le (v : ℕ) : List ℕ := [v % 256, v / 256 % 256]

/-- Little-endian bytes of a 32-bit value. -/
def u32le (v : ℕ) : List ℕ := [v % 256, v / 256 % 256, v / 65536 % 256, v / 16777216 % 256]

/-- Two's-complement little-endian encoding of a 16-bit sample. -/
def int16le (v : ℤ) : List ℕ := u16le (v % 65536).toNat

/-- Two's-complement little-endian encoding of a 24-bit sample (the source
writes intVal bitand 0xFF, then the next two shifted bytes). -/
def int24le (v : ℤ) : List ℕ :=
  [(v % 16777216).toNat % 256, (v % 16777216).toNat / 256 % 256,
   (v % 16777216).toNat / 65536 % 256]

/-- Two's-complement little-endian encoding of a 32-bit sample. -/
def int32le (v : ℤ) : List ℕ := u32le (v % 4294967296).toNat

/-- Value of a 4-byte little-endian field (how a WAV reader decodes the
data-length field at offset 40). -/
def le32decode (bs : List ℕ) : ℕ :=
  bs.getD 0 0 + 256 * bs.getD 1 0 + 65536 * bs.getD 2 0 + 16777216 * bs.getD 3 0

/-- First 40 bytes of the WAV header written at lines 467-478: RIFF size,
WAVE/fmt tags, PCM format, channel count, sample rate, byte rate, block align
and bit depth, all little-endian.  The final data tag closes the chunk; the
4-byte data length field follows (wavHeader appends it). -/
def wavHeaderPre (numCh rate bytesPerSample bitDepth dataSize : ℕ) : List ℕ :=
  [82, 73, 70, 70] ++ u32le (36 + dataSize) ++
  [87, 65, 86, 69] ++ [102, 109, 116, 32] ++
  u32le 16 ++ u16le 1 ++ u16le numCh ++ u32le rate ++
  u32le (rate * numCh * bytesPerSample) ++ u16le (numCh * bytesPerSample) ++
  u16le bitDepth ++ [100, 97, 116, 97]

/-- Full 44-byte WAV header: the 40-byte prefix followed by the little-endian
data length field at offset 40. -/
def wavHeader (numCh rate bytesPerSample bitDepth dataSize : ℕ) : List ℕ :=
  wavHeaderPre numCh rate bytesPerSample bitDepth dataSize ++ u32le dataSize

/-- audioBufferToWav (samIntegration.ts lines 405-486) as a byte string:
interleave, quantize at the requested bit depth (throwing on an unsupported
depth), then emit the 44-byte header followed by the PCM bytes.  dataSize is
the byte length of the PCM data actually written. -/
def audioBufferToWav (b : AudioBuffer) (bitDepth : ℕ) : Except String (List ℕ) :=
  let pcmOpt : Option (ℕ × List ℕ) :=
    if bitDepth = 16 then some (2, (interleave b).flatMap fun x => int16le (wavQuant16 x))
    else if bitDepth = 24 then some (3, (interleave b).flatMap fun x => int24le (wavQuant24 x))
    else if bitDepth = 32 then some (4, (interleave b).flatMap fun x => int32le (wavQuant32 x))
    else none
  match pcmOpt with
  | none => .error "Unsupported bit depth"
  | some (bytesPerSample, pcmBytes) =>
      .ok (wavHeader b.numberOfChannels b.sampleRate bytesPerSample bitDepth pcmBytes.length
           ++ pcmBytes)

/-- PCM arrays fed to the MP3 encoder (convertToMp3, lines 636-645): the left
array quantizes channel 0, the right array channel 1 when present, else
channel 0 again. -/
def mp3Pcm (b : AudioBuffer) : List ℤ × List ℤ :=
  let leftChannel := b.getChannelData 0
  let rightChannel := if 1 < b.numberOfChannels then b.getChannelData 1 else leftChannel
  ((List.range b.length).map fun i => mp3Quant16 (sampleAt leftChannel i),
   (List.range b.length).map fun i => mp3Quant16 (sampleAt rightChannel i))

/-- JS truthiness of an optional stored number (recordingStartTime is stored
via Date.now(); undefined and 0 are falsy). -/
def jsTruthyNum (o : Option ℕ) : Bool :=
  match o with
  | none => false
  | some n => n != 0

/-- Response of the getRecordingState handler (background.ts lines 87-110). -/
structure StateResponse where
  success : Bool
  isRecording : Bool
  hasRecording : Bool
deriving DecidableEq

/-- getRecordingState handler (background.ts lines 87-110): reports the session
active when an offscreen context exists, or when the in-memory flag is set and
a durable recordingStartTime is stored; hasRecording additionally reflects a
nonempty in-memory chunk buffer. -/
def getRecordingStateHandler (isRecording hasOffscreen : Bool)
    (recordingStartTime : Option ℕ) (recordingChunksLen : ℕ) : StateResponse :=
  let isRecordingActive := hasOffscreen || (isRecording && jsTruthyNum recordingStartTime)
  { success := true
    isRecording := isRecordingActive
    hasRecording := decide (0 < recordingChunksLen) || isRecordingActive }

/-- One platform response to chrome.tabCapture.getMediaStreamId: either
chrome.runtime.lastError was set with a message, or a (possibly undefined)
stream id was delivered. -/
inductive TabCaptureResponse where
  | lastError : String → TabCaptureResponse
  | gotId : Option String → TabCaptureResponse
deriving DecidableEq

/-- Terminal outcome of captureTabAudio: resolve with a stored stream id, or
reject with an error message. -/
inductive CaptureOutcome where
  | success : String → CaptureOutcome
  | failure : String → CaptureOutcome
deriving DecidableEq

/-- Substring test on character lists (JS String.prototype.includes). -/
def charsContain (hay pat : List Char) : Bool :=
  match hay with
  | [] => pat.isEmpty
  | _ :: rest => pat.isPrefixOf hay || charsContain rest pat

/-- Error classification of captureTabAudio (background.ts lines 227 and 240):
an error is treated as the transient active-stream condition when its message
contains active stream or Cannot capture. -/
def isActiveStreamError (msg : String) : Bool :=
  charsContain msg.data "active stream".data || charsContain msg.data "Cannot capture".data

/-- Retry bound of captureTabAudio (background.ts line 230). -/
def maxRetries : ℕ := 3

/-- Base retry delay in milliseconds (background.ts line 231). -/
def retryDelay : ℕ := 800

/-- Retry loop of captureTabAudio (background.ts lines 233-263).  The platform
is modelled as the sequence of responses it would give to consecutive
getMediaStreamId calls; retry attempt number retryCount + 1 consumes
responses (retryCount + 1) after a delay of retryDelay * (retryCount + 1).
On an active-stream error the source recurses while retryCount < maxRetries,
incrementing retryCount after the check; remaining is structural fuel kept at
maxRetries - retryCount, so the fuel-exhausted branch coincides with the
reject branch and is never reached while the guard holds.  Returns the outcome
together with the list of retry delays actually used. -/
def retryCapture (responses : ℕ → TabCaptureResponse) :
    ℕ → ℕ → CaptureOutcome × List ℕ
  | retryCount, remaining =>
    let delay := retryDelay * (retryCount + 1)
    match responses (retryCount + 1) with
    | .lastError msg =>
        if isActiveStreamError msg && decide (retryCount < maxRetries) then
          match remaining with
          | r + 1 =>
              let rest := retryCapture responses (retryCount + 1) r
              (rest.1, delay :: rest.2)
          | 0 => (.failure msg, [delay])
        else (.failure msg, [delay])
    | .gotId none => (.failure "Failed to get media stream ID", [delay])
    | .gotId (some id) => (.success id, [delay])

/-- captureTabAudio (background.ts lines 213-286): the initial attempt consumes
responses 0; an active-stream error enters the retry loop with retryCount 0,
any other error rejects immediately, an undefined id rejects, and a delivered
id resolves.  Returns the outcome and the list of retry delays used (the
initial attempt's fixed 300 ms settling delay is not a retry delay). -/
def captureTabAudio (responses : ℕ → TabCaptureResponse) : CaptureOutcome × List ℕ :=
  match responses 0 with
  | .lastError msg =>
      if isActiveStreamError msg then retryCapture responses 0 maxRetries
      else (.failure msg, [])
  | .gotId none => (.failure "Failed to get media stream ID", [])
  | .gotId (some id) => (.success id, [])

/-- In-memory state of the background service worker relevant to chunk
buffering (background.ts lines 3-4). -/
structure BgState where
  isRecording : Bool
  recordingChunks : List (List ℕ)
deriving DecidableEq

/-- One durable-storage operation issued by the background worker. -/
inductive StorageOp where
  | setChunks : List (List ℕ) → StorageOp
  | removeKeys : List String → StorageOp
deriving DecidableEq

/-- addRecordingChunk handler (background.ts lines 197-209): pushes the
fragment onto the in-memory buffer and issues no storage operation at all. -/
def addRecordingChunkHandler (st : BgState) (chunk : Option (List ℕ)) :
    BgState × List StorageOp :=
  match chunk with
  | some c => ({ st with recordingChunks := st.recordingChunks ++ [c] }, [])
  | none => (st, [])

/-- handleStopCapture (background.ts lines 340-399) on the offscreen path:
stops the recorder, writes the assembled chunk buffer to storage once (skipped
when the buffer is empty), removes the session metadata keys, and clears the
in-memory buffer.  Without an offscreen context the legacy fallback issues no
storage operation. -/
def handleStopCapture (st : BgState) (hasOffscreen : Bool) : BgState × List StorageOp :=
  if hasOffscreen then
    ({ isRecording := false, recordingChunks := [] },
     (if 0 < st.recordingChunks.length then [StorageOp.setChunks st.recordingChunks] else [])
       ++ [StorageOp.removeKeys ["recordingStreamId", "recordingTabId", "recordingStartTime"]])
  else (st, [])

/-- Deliver a sequence of addRecordingChunk messages, accumulating the storage
operations they issue. -/
def runAppends (st : BgState) (cs : List (List ℕ)) : BgState × List StorageOp :=
  match cs with
  | [] => (st, [])
  | c :: rest =>
      let step := addRecordingChunkHandler st (some c)
      let next := runAppends step.1 rest
      (next.1, step.2 ++ next.2)

/-- Number of durable writes of the chunk buffer in a list of storage ops. -/
def countChunkWrites (ops : List StorageOp) : ℕ :=
  (ops.filter fun op => match op with | .setChunks _ => true | _ => false).length

/-! Helper lemmas shared by several claim proofs. -/

lemma sampleAt_nil (i : ℕ) : sampleAt [] i = 0 := by
  simp [sampleAt]

lemma sampleAt_replicate_zero (n i : ℕ) : sampleAt (List.replicate n (0:ℚ)) i = 0 := by
  rcases lt_or_ge i n with h | h
  · simp [sampleAt, List.getD_eq_getElem?_getD, List.getElem?_replicate, h]
  · have hn : (List.replicate n (0:ℚ)).length ≤ i := by simpa using h
    simp [sampleAt, List.getD_eq_getElem?_getD, List.getElem?_eq_none hn]

/-- C10: for every payload whose channel count differs from the requested
target but whose pair is neither stereo-to-mono nor mono-to-stereo, the
channel remix returns a buffer of the target channel count and the original
frame count whose samples are all zero; the source audio is discarded and no
error is raised. -/
theorem convertChannels_unsupported_pair_silent (b : AudioBuffer) (t : ℕ)
    (hne : b.numberOfChannels ≠ t)
    (h21 : ¬(t = 1 ∧ b.numberOfChannels = 2))
    (h12 : ¬(t = 2 ∧ b.numberOfChannels = 1)) :
    (convertChannels b t).numberOfChannels = t ∧
    (convertChannels b t).length = b.length ∧
    ∀ c i, sampleAt ((convertChannels b t).getChannelData c) i = 0 := by
  have hcc : convertChannels b t = createBuffer t b.length b.sampleRate := by
    rw [convertChannels, if_neg hne, if_neg h21, if_neg h12]
  rw [hcc]
  refine ⟨by simp [createBuffer, AudioBuffer.numberOfChannels], rfl, ?_⟩
  intro c i
  rcases lt_or_ge c t with hc | hc
  · simp only [createBuffer, AudioBuffer.getChannelData,
      List.getD_eq_getElem?_getD, List.getElem?_replicate, hc, if_pos]
    simpa using sampleAt_replicate_zero b.length i
  · have hcl : (List.replicate t (List.replicate b.length (0:ℚ))).length ≤ c := by
      simpa using hc
    simp only [createBuffer, AudioBuffer.getChannelData, List.getD_eq_getElem?_getD,
      List.getElem?_eq_none hcl]
    simpa using sampleAt_nil i

/-- Witness for C10 at a concrete 3-channel buffer remixed to 1 channel. -/
theorem convertChannels_unsupported_pair_silent_witness :
    (convertChannels ⟨10, 2, [[1, 2], [3, 4], [5, 6]]⟩ 1).numberOfChannels = 1 ∧
    (convertChannels ⟨10, 2, [[1, 2], [3, 4], [5, 6]]⟩ 1).length = 2 ∧
    ∀ c i, sampleAt ((convertChannels ⟨10, 2, [[1, 2], [3, 4], [5, 6]]⟩ 1).getChannelData c) i = 0 :=
  convertChannels_unsupported_pair_silent ⟨10, 2, [[1, 2], [3, 4], [5, 6]]⟩ 1
    (by decide) (by decide) (by decide)

/-- C6: for every crop request whose computed sample range is empty (end index
at most start index) or whose start index is at or beyond the payload length,
the crop returns the original payload unchanged; the operation is total, so no
error is ever raised. -/
theorem crop_noop_on_empty_or_late_range (b : AudioBuffer) (t e : ℚ)
    (h : ⌊e * (b.sampleRate : ℚ)⌋ ≤ ⌊t * (b.sampleRate : ℚ)⌋ ∨
         (b.length : ℤ) ≤ ⌊t * (b.sampleRate : ℚ)⌋) :
    cropAudioBuffer b t e = CropResult.original := by
  have hcond : max 0 (⌊e * (b.sampleRate : ℚ)⌋ - ⌊t * (b.sampleRate : ℚ)⌋) = 0 ∨
      (b.length : ℤ) ≤ ⌊t * (b.sampleRate : ℚ)⌋ := by omega
  rw [cropAudioBuffer, if_pos hcond]

/-- Witness for C6: cropping a 1-second buffer from 5 s to 9 s is a no-op. -/
theorem crop_noop_on_empty_or_late_range_witness :
    cropAudioBuffer ⟨10, 10, [[0, 0, 0, 0, 0, 0, 0, 0, 0, 0]]⟩ 5 9 = CropResult.original :=
  crop_noop_on_empty_or_late_range ⟨10, 10, [[0, 0, 0, 0, 0, 0, 0, 0, 0, 0]]⟩ 5 9
    (Or.inr (by norm_num))

/-- C1 counterexample: a durably stored recording start time with the
in-memory flag cleared and no offscreen context is an active-session signal,
yet the handler reports the session as idle (it requires the in-memory flag
and the stored start time together, or a live offscreen context). -/
theorem getRecordingState_startTime_alone_reports_idle :
    jsTruthyNum (some 1700000000000) = true ∧
    (getRecordingStateHandler false false (some 1700000000000) 0).isRecording = false := by
  constructor
  · decide
  · decide

/-- C1 amended: getRecordingState reports Capturing exactly when the offscreen
Worker context is live, or the in-memory recording flag is set and a truthy
recording start time is durably stored; a stored start time alone, or the
in-memory flag alone, reports Idle. -/
theorem getRecordingState_reports_capturing_iff (r o : Bool) (st : Option ℕ) (k : ℕ) :
    ((getRecordingStateHandler r o st k).isRecording = true) ↔
      (o = true ∨ (r = true ∧ jsTruthyNum st = true)) := by
  simp [getRecordingStateHandler]

/-- Witness for C1 at a concrete signal combination. -/
theorem getRecordingState_reports_capturing_iff_witness :
    ((getRecordingStateHandler true false (some 5) 0).isRecording = true) ↔
      (false = true ∨ (true = true ∧ jsTruthyNum (some 5) = true)) :=
  getRecordingState_reports_capturing_iff true false (some 5) 0

lemma runAppends_spec (cs : List (List ℕ)) : ∀ st : BgState,
    (runAppends st cs).2 = [] ∧
    (runAppends st cs).1 = { st with recordingChunks := st.recordingChunks ++ cs } := by
  induction cs with
  | nil => intro st; exact ⟨rfl, by simp [runAppends]⟩
  | cons c rest ih =>
      intro st
      have h := ih { st with recordingChunks := st.recordingChunks ++ [c] }
      refine ⟨?_, ?_⟩
      · simp [runAppends, addRecordingChunkHandler, h.1]
      · simp [runAppends, addRecordingChunkHandler, h.2]

/-- C3: delivering any sequence of addRecordingChunk messages issues no durable
storage operation at all and only appends to the in-memory buffer; stopping the
capture afterwards (with the offscreen Worker context live) writes the
assembled chunk buffer to durable storage exactly once. -/
theorem addRecordingChunk_memory_only_single_stop_write (st : BgState) (cs : List (List ℕ))
    (h : st.recordingChunks ++ cs ≠ []) :
    (runAppends st cs).2 = [] ∧
    (runAppends st cs).1.recordingChunks = st.recordingChunks ++ cs ∧
    countChunkWrites (handleStopCapture (runAppends st cs).1 true).2 = 1 ∧
    StorageOp.setChunks (st.recordingChunks ++ cs) ∈
      (handleStopCapture (runAppends st cs).1 true).2 := by
  obtain ⟨hops, hst⟩ := runAppends_spec cs st
  have hlen : 0 < ((runAppends st cs).1).recordingChunks.length := by
    have h' : 0 < (st.recordingChunks ++ cs).length := List.length_pos.mpr h
    rw [hst]
    exact h'
  refine ⟨hops, by rw [hst], ?_, ?_⟩
  · simp [handleStopCapture, hlen, countChunkWrites]
  · simp [handleStopCapture, hlen, hst]
    have h' : 0 < (st.recordingChunks ++ cs).length := List.length_pos.mpr h
    simp only [List.length_append] at h'
    omega

/-- Witness for C3: two fragments appended from an empty buffer, then stop. -/
theorem addRecordingChunk_memory_only_single_stop_write_witness :
    (runAppends ⟨true, []⟩ [[1], [2]]).2 = [] ∧
    (runAppends ⟨true, []⟩ [[1], [2]]).1.recordingChunks = [] ++ [[1], [2]] ∧
    countChunkWrites (handleStopCapture (runAppends ⟨true, []⟩ [[1], [2]]).1 true).2 = 1 ∧
    StorageOp.setChunks ([] ++ [[1], [2]]) ∈
      (handleStopCapture (runAppends ⟨true, []⟩ [[1], [2]]).1 true).2 :=
  addRecordingChunk_memory_only_single_stop_write ⟨true, []⟩ [[1], [2]] (by decide)

/-- C2 counterexample: with a platform stub that always reports the
active-stream error, captureTabAudio performs four retried attempts (delays
800, 1600, 2400, 3200 ms), not three: the retry counter is compared against
maxRetries = 3 before being incremented and the first retry is unconditional,
so five platform calls happen before the terminal error surfaces. -/
theorem captureTabAudio_always_active_four_retries :
    captureTabAudio (fun _ => TabCaptureResponse.lastError
        "Cannot capture a tab with an active stream") =
      (CaptureOutcome.failure "Cannot capture a tab with an active stream",
        [800, 1600, 2400, 3200]) ∧
    (captureTabAudio (fun _ => TabCaptureResponse.lastError
        "Cannot capture a tab with an active stream")).2.length = 4 := by
  exact ⟨by decide, by decide⟩

lemma delays_one (c : ℕ) :
    (List.range 1).map (fun k => retryDelay * (c + k + 1)) = [retryDelay * (c + 1)] := by
  simp [List.range_succ]

lemma delays_cons (c n : ℕ) :
    retryDelay * (c + 1) :: (List.range n).map (fun k => retryDelay * (c + 1 + k + 1)) =
      (List.range (n + 1)).map (fun k => retryDelay * (c + k + 1)) := by
  rw [List.range_succ_eq_map, List.map_cons, List.map_map]
  refine congrArg₂ List.cons (by ring) ?_
  refine List.map_congr_left fun k _ => ?_
  simp only [Function.comp_apply, Nat.succ_eq_add_one]
  ring

lemma retryCapture_delays (responses : ℕ → TabCaptureResponse) :
    ∀ r c : ℕ, ∃ n, 1 ≤ n ∧ n ≤ r + 1 ∧
      (retryCapture responses c r).2 = (List.range n).map fun k => retryDelay * (c + k + 1) := by
  intro r
  induction r with
  | zero =>
      intro c
      refine ⟨1, le_refl 1, le_refl 1, ?_⟩
      rw [retryCapture, delays_one]
      cases hr : responses (c + 1) with
      | lastError msg =>
          by_cases hb : (isActiveStreamError msg && decide (c < maxRetries)) = true
          · simp [hb]
          · simp [hb]
      | gotId id => cases id <;> simp
  | succ r ih =>
      intro c
      rw [retryCapture]
      cases hr : responses (c + 1) with
      | lastError msg =>
          by_cases hb : (isActiveStreamError msg && decide (c < maxRetries)) = true
          · obtain ⟨n, hn1, hn2, heq⟩ := ih (c + 1)
            refine ⟨n + 1, by omega, by omega, ?_⟩
            simp only [hb, if_true, heq]
            exact delays_cons c n
          · exact ⟨1, le_refl 1, by omega, by simp [hb, delays_one]⟩
      | gotId id => cases id <;> exact ⟨1, le_refl 1, by omega, by simp [delays_one]⟩

lemma captureTabAudio_delays (responses : ℕ → TabCaptureResponse) :
    ∃ n, n ≤ 4 ∧
      (captureTabAudio responses).2 = (List.range n).map fun k => retryDelay * (k + 1) := by
  rw [captureTabAudio]
  cases hr : responses 0 with
  | lastError msg =>
      by_cases hb : isActiveStreamError msg = true
      · obtain ⟨n, _, hn2, heq⟩ := retryCapture_delays responses maxRetries 0
        refine ⟨n, by simpa [maxRetries] using hn2, ?_⟩
        simp only [hb, if_true, heq]
        exact List.map_congr_left fun k _ => by ring
      · refine ⟨0, by omega, ?_⟩
        simp [hb]
  | gotId id => cases id <;> exact ⟨0, by omega, by simp⟩

lemma retryCapture_all_active (responses : ℕ → TabCaptureResponse) (msg : String)
    (hact : isActiveStreamError msg = true)
    (hall : ∀ k, responses k = TabCaptureResponse.lastError msg) :
    ∀ r c : ℕ, c + r = maxRetries →
      retryCapture responses c r =
        (CaptureOutcome.failure msg, (List.range (r + 1)).map fun k => retryDelay * (c + k + 1)) := by
  intro r
  induction r with
  | zero =>
      intro c hc
      have hc3 : c = maxRetries := by omega
      rw [retryCapture, hall, delays_one]
      have hguard : (isActiveStreamError msg && decide (c < maxRetries)) = false := by
        subst hc3
        simp [hact]
      simp [hguard]
  | succ r ih =>
      intro c hc
      have hclt : c < maxRetries := by omega
      rw [retryCapture, hall]
      have hguard : (isActiveStreamError msg && decide (c < maxRetries)) = true := by
        simp [hact, hclt]
      simp only [hguard, if_true, ih (c + 1) (by omega)]
      rw [Prod.mk.injEq]
      exact ⟨rfl, delays_cons c (r + 1)⟩

lemma retryCapture_only_active (responses : ℕ → TabCaptureResponse) :
    ∀ r c i : ℕ, i + 1 < (retryCapture responses c r).2.length →
      ∃ m, responses (c + 1 + i) = TabCaptureResponse.lastError m ∧
        isActiveStreamError m = true := by
  intro r
  induction r with
  | zero =>
      intro c i hi
      obtain ⟨n, _, hn2, heq⟩ := retryCapture_delays responses 0 c
      rw [heq] at hi
      simp only [List.length_map, List.length_range] at hi
      omega
  | succ r ih =>
      intro c i hi
      cases hr : responses (c + 1) with
      | lastError m =>
          by_cases hb : (isActiveStreamError m && decide (c < maxRetries)) = true
          · have hD : (retryCapture responses c (r + 1)).2 =
                retryDelay * (c + 1) :: (retryCapture responses (c + 1) r).2 := by
              rw [retryCapture, hr]
              simp [hb]
            rw [hD, List.length_cons] at hi
            cases i with
            | zero =>
                refine ⟨m, hr, ?_⟩
                have hb' := hb
                simp only [Bool.and_eq_true, decide_eq_true_eq] at hb'
                exact hb'.1
            | succ i' =>
                obtain ⟨m', hm', ha'⟩ := ih (c + 1) i' (by omega)
                refine ⟨m', ?_, ha'⟩
                rw [show c + 1 + (i' + 1) = c + 1 + 1 + i' from by omega]
                exact hm'
          · have hD : (retryCapture responses c (r + 1)).2 = [retryDelay * (c + 1)] := by
              rw [retryCapture, hr]
              simp [hb]
            rw [hD] at hi
            simp at hi
      | gotId id =>
          cases id with
          | none =>
              have hD : (retryCapture responses c (r + 1)).2 = [retryDelay * (c + 1)] := by
                rw [retryCapture, hr]
              rw [hD] at hi
              simp at hi
          | some sid =>
              have hD : (retryCapture responses c (r + 1)).2 = [retryDelay * (c + 1)] := by
                rw [retryCapture, hr]
              rw [hD] at hi
              simp at hi

lemma captureTabAudio_only_active (responses : ℕ → TabCaptureResponse) :
    ∀ i, i < (captureTabAudio responses).2.length →
      ∃ m, responses i = TabCaptureResponse.lastError m ∧ isActiveStreamError m = true := by
  intro i hi
  cases hr : responses 0 with
  | lastError m0 =>
      by_cases hb : isActiveStreamError m0 = true
      · have hD : (captureTabAudio responses).2 = (retryCapture responses 0 maxRetries).2 := by
          rw [captureTabAudio, hr]
          simp [hb]
        rw [hD] at hi
        cases i with
        | zero => exact ⟨m0, hr, hb⟩
        | succ i' =>
            obtain ⟨m', hm', ha'⟩ := retryCapture_only_active responses maxRetries 0 i' hi
            refine ⟨m', ?_, ha'⟩
            rw [show i' + 1 = 0 + 1 + i' from by omega]
            exact hm'
      · have hD : (captureTabAudio responses).2 = [] := by
          rw [captureTabAudio, hr]
          simp [hb]
        rw [hD] at hi
        simp at hi
  | gotId id =>
      cases id with
      | none =>
          have hD : (captureTabAudio responses).2 = [] := by rw [captureTabAudio, hr]
          rw [hD] at hi
          simp at hi
      | some sid =>
          have hD : (captureTabAudio responses).2 = [] := by rw [captureTabAudio, hr]
          rw [hD] at hi
          simp at hi

lemma retryCapture_mid_stop (responses : ℕ → TabCaptureResponse) (m : String)
    (hm : isActiveStreamError m = false) :
    ∀ j c : ℕ, c + 1 + j ≤ maxRetries + 1 →
      (∀ i, i < j → ∃ mi, responses (c + 1 + i) = TabCaptureResponse.lastError mi ∧
        isActiveStreamError mi = true) →
      responses (c + 1 + j) = TabCaptureResponse.lastError m →
      retryCapture responses c (maxRetries - c) =
        (CaptureOutcome.failure m,
          (List.range (j + 1)).map fun k => retryDelay * (c + k + 1)) := by
  intro j
  induction j with
  | zero =>
      intro c _ _ hj
      rw [Nat.add_zero] at hj
      rw [retryCapture, hj, delays_one]
      simp [hm]
  | succ j ih =>
      intro c hc hpre hj
      obtain ⟨m0, h0, ha0⟩ := hpre 0 (by omega)
      rw [Nat.add_zero] at h0
      have hclt : c < maxRetries := by omega
      have hpre' : ∀ i, i < j → ∃ mi,
          responses (c + 1 + 1 + i) = TabCaptureResponse.lastError mi ∧
          isActiveStreamError mi = true := by
        intro i hi
        obtain ⟨mi, hmi, hai⟩ := hpre (i + 1) (by omega)
        refine ⟨mi, ?_, hai⟩
        rw [show c + 1 + 1 + i = c + 1 + (i + 1) from by omega]
        exact hmi
      have hj' : responses (c + 1 + 1 + j) = TabCaptureResponse.lastError m := by
        rw [show c + 1 + 1 + j = c + 1 + (j + 1) from by omega]
        exact hj
      have hih := ih (c + 1) (by omega) hpre' hj'
      have hrem : maxRetries - c = (maxRetries - (c + 1)) + 1 := by omega
      rw [hrem, retryCapture, h0]
      have hguard : (isActiveStreamError m0 && decide (c < maxRetries)) = true := by
        simp [ha0, hclt]
      simp only [hguard, if_true, hih]
      rw [Prod.mk.injEq]
      exact ⟨rfl, delays_cons c (j + 1)⟩

lemma captureTabAudio_mid_stop (responses : ℕ → TabCaptureResponse) (j : ℕ) (m : String)
    (hj1 : 1 ≤ j) (hj4 : j ≤ 4)
    (hpre : ∀ i, i < j → ∃ mi, responses i = TabCaptureResponse.lastError mi ∧
      isActiveStreamError mi = true)
    (hj : responses j = TabCaptureResponse.lastError m)
    (hm : isActiveStreamError m = false) :
    captureTabAudio responses =
      (CaptureOutcome.failure m, (List.range j).map fun k => retryDelay * (k + 1)) := by
  obtain ⟨m0, h0, ha0⟩ := hpre 0 (by omega)
  have hpre' : ∀ i, i < j - 1 → ∃ mi,
      responses (0 + 1 + i) = TabCaptureResponse.lastError mi ∧
      isActiveStreamError mi = true := by
    intro i hi
    obtain ⟨mi, hmi, hai⟩ := hpre (i + 1) (by omega)
    refine ⟨mi, ?_, hai⟩
    rw [show 0 + 1 + i = i + 1 from by omega]
    exact hmi
  have hjidx : responses (0 + 1 + (j - 1)) = TabCaptureResponse.lastError m := by
    rw [show 0 + 1 + (j - 1) = j from by omega]
    exact hj
  have hmid := retryCapture_mid_stop responses m hm (j - 1) 0
    (by rw [show maxRetries = 3 from rfl]; omega) hpre' hjidx
  rw [captureTabAudio, h0]
  simp only [ha0, if_true]
  rw [show maxRetries = maxRetries - 0 from rfl, hmid, Prod.mk.injEq]
  refine ⟨rfl, ?_⟩
  rw [show j - 1 + 1 = j from by omega]
  exact List.map_congr_left fun k _ => by ring

/-- C2 amended: stream acquisition retries only on the transient active-stream
platform error: every platform response that triggered a retry was an
active-stream error, and a non-transient error - whether on the initial
attempt or arriving mid-retry - surfaces immediately with no further retry;
the retry delays grow strictly on each attempt; and the number of retried
attempts is bounded by 4, not 3: the counter is compared against
maxRetries = 3 before being incremented, so a stub that always reports the
active-stream error sees the initial attempt plus exactly four retries
(delays 800, 1600, 2400, 3200 ms) before the terminal error surfaces. -/
theorem captureTabAudio_retry_policy (responses : ℕ → TabCaptureResponse) :
    (∀ msg, responses 0 = TabCaptureResponse.lastError msg →
      isActiveStreamError msg = false →
      captureTabAudio responses = (CaptureOutcome.failure msg, [])) ∧
    (captureTabAudio responses).2.length ≤ 4 ∧
    List.Chain' (fun a b => a < b) (captureTabAudio responses).2 ∧
    (∀ msg, isActiveStreamError msg = true →
      (∀ k, responses k = TabCaptureResponse.lastError msg) →
      captureTabAudio responses =
        (CaptureOutcome.failure msg, [800, 1600, 2400, 3200])) ∧
    (∀ i, i < (captureTabAudio responses).2.length →
      ∃ m, responses i = TabCaptureResponse.lastError m ∧ isActiveStreamError m = true) ∧
    (∀ j msg, 1 ≤ j → j ≤ 4 →
      (∀ i, i < j → ∃ mi, responses i = TabCaptureResponse.lastError mi ∧
        isActiveStreamError mi = true) →
      responses j = TabCaptureResponse.lastError msg →
      isActiveStreamError msg = false →
      captureTabAudio responses =
        (CaptureOutcome.failure msg, (List.range j).map fun k => retryDelay * (k + 1))) := by
  obtain ⟨n, hn, hdelays⟩ := captureTabAudio_delays responses
  refine ⟨?_, ?_, ?_, ?_, captureTabAudio_only_active responses,
    fun j msg hj1 hj4 hpre hj hmsg =>
      captureTabAudio_mid_stop responses j msg hj1 hj4 hpre hj hmsg⟩
  · intro msg h0 hfalse
    rw [captureTabAudio, h0]
    simp [hfalse]
  · rw [hdelays]
    simpa using hn
  · rw [hdelays]
    refine List.Pairwise.chain' ?_
    refine List.Pairwise.map _ (fun a b hab => ?_) (List.pairwise_lt_range n)
    simp only [retryDelay]
    omega
  · intro msg hact hall
    have hmain := retryCapture_all_active responses msg hact hall maxRetries 0 (by simp)
    rw [captureTabAudio, hall 0]
    simp only [hact, if_true, hmain]
    rw [Prod.mk.injEq]
    refine ⟨rfl, ?_⟩
    norm_num [maxRetries, retryDelay, List.range_succ]

/-- Witness for C2: a stub that reports the active-stream error once and then
a non-transient error terminates after the first retry, surfacing the
non-transient error with a single retry delay. -/
theorem captureTabAudio_retry_policy_witness :
    captureTabAudio (fun k => if k = 0
        then TabCaptureResponse.lastError "Cannot capture a tab with an active stream"
        else TabCaptureResponse.lastError "Permission denied") =
      (CaptureOutcome.failure "Permission denied", [800]) := by
  have h := (captureTabAudio_retry_policy (fun k => if k = 0
      then TabCaptureResponse.lastError "Cannot capture a tab with an active stream"
      else TabCaptureResponse.lastError "Permission denied")).2.2.2.2.2
    1 "Permission denied" (le_refl 1) (by omega)
    (fun i hi => by
      have hi0 : i = 0 := by omega
      subst hi0
      exact ⟨"Cannot capture a tab with an active stream", rfl, by decide⟩)
    rfl (by decide)
  rw [h]
  norm_num [List.range_succ, retryDelay]

/-- C8 counterexample: at sample value 1/2 the WAV path quantizes to
floor(0.5 * 32767) = 16383, but the MP3 path computes 0.5 * 32768 = 16384 for
a nonnegative sample — the MP3 encoder does not use the asymmetric
signed-PCM rule the claim states for both paths. -/
theorem mp3_quant_differs_from_asymmetric_rule :
    wavQuant16 (1/2) = 16383 ∧ mp3Quant16 (1/2) = 16384 ∧
    mp3Quant16 (1/2) ≠ jtrunc ((1/2 : ℚ) * 32767) := by
  refine ⟨?_, ?_, ?_⟩ <;>
    norm_num [wavQuant16, mp3Quant16, clampUnit, jtrunc, min_def, max_def]

/-- C8 amended: for every sample already in [-1, 1], the WAV 16-bit path
computes the asymmetric rule (s * 32768 when s is negative, s * 32767
otherwise, truncated), while the MP3 path instead computes s * 32768 for both
signs, clamped above at 32767 (the lower clamp at -32768 never binds for
samples at least -1). -/
theorem pcm16_quantization_rules (x : ℚ) (h1 : -1 ≤ x) (h2 : x ≤ 1) :
    wavQuant16 x = jtrunc (if x < 0 then x * 32768 else x * 32767) ∧
    mp3Quant16 x = jtrunc (min 32767 (x * 32768)) := by
  have hc : clampUnit x = x := by
    rw [clampUnit, min_eq_right h2, max_eq_right h1]
  constructor
  · simp only [wavQuant16, hc]
  · simp only [mp3Quant16]
    congr 1
    refine max_eq_right (le_min (by norm_num) ?_)
    linarith

/-- Witness for C8 at sample value 1/2. -/
theorem pcm16_quantization_rules_witness :
    wavQuant16 (1/2) = jtrunc (if (1/2 : ℚ) < 0 then (1/2 : ℚ) * 32768 else (1/2 : ℚ) * 32767) ∧
    mp3Quant16 (1/2) = jtrunc (min 32767 ((1/2 : ℚ) * 32768)) :=
  pcm16_quantization_rules (1/2) (by norm_num) (by norm_num)

/-- C5 counterexample: at sample rate 10 Hz, cropping from 0.15 s to 0.35 s
uses floor indices 1 and 3 (the slice holds source samples 1 and 2), whereas
the claimed rule round(seconds * sampleRate) would give start index 2 and the
slice would begin with source sample 2: the code uses Math.floor, not
Math.round. -/
theorem crop_uses_floor_not_round :
    cropAudioBuffer ⟨10, 10, [[0, 1, 2, 3, 4, 5, 6, 7, 8, 9]]⟩ (3/20) (7/20) =
      CropResult.cropped ⟨10, 2, [[1, 2]]⟩ ∧
    jround ((3/20 : ℚ) * 10) = 2 ∧ ⌊(3/20 : ℚ) * 10⌋ = 1 := by
  refine ⟨?_, by norm_num [jround], by norm_num⟩
  have hs : ⌊(3/20 : ℚ) * ((10 : ℕ) : ℚ)⌋ = 1 := by norm_num
  have he : ⌊(7/20 : ℚ) * ((10 : ℕ) : ℚ)⌋ = 3 := by norm_num
  rw [cropAudioBuffer]
  simp only [hs, he]
  decide

lemma channels_getD_map (f : List ℚ → List ℚ) (l : List (List ℚ)) (ch : ℕ)
    (h : ch < l.length) : (l.map f).getD ch [] = f (l.getD ch []) := by
  rw [List.getD_eq_getElem?_getD, List.getElem?_map, List.getElem?_eq_getElem h,
    Option.map_some', Option.getD_some, List.getD_eq_getElem?_getD,
    List.getElem?_eq_getElem h, Option.getD_some]

lemma sampleAt_range_map (g : ℕ → ℚ) (n j : ℕ) (h : j < n) :
    sampleAt ((List.range n).map g) j = g j := by
  rw [sampleAt, List.getD_eq_getElem?_getD, List.getElem?_map, List.getElem?_range h,
    Option.map_some', Option.getD_some]

/-- C5 amended: the crop converts the start and end times to sample indices
via floor(seconds * sampleRate) (not round): whenever the floor-based range is
nonempty and starts inside the payload, the result is the slice whose frame j
holds source frame floor(start * rate) + j (zero where that runs past the
channel data). -/
theorem crop_floor_index_slice (b : AudioBuffer) (t e : ℚ)
    (h0 : 0 ≤ ⌊t * (b.sampleRate : ℚ)⌋)
    (hlt : ⌊t * (b.sampleRate : ℚ)⌋ < ⌊e * (b.sampleRate : ℚ)⌋)
    (hstart : ⌊t * (b.sampleRate : ℚ)⌋ < (b.length : ℤ)) :
    ∃ c, cropAudioBuffer b t e = CropResult.cropped c ∧
      (c.length : ℤ) = ⌊e * (b.sampleRate : ℚ)⌋ - ⌊t * (b.sampleRate : ℚ)⌋ ∧
      ∀ ch j, ch < b.numberOfChannels → j < c.length →
        sampleAt (c.getChannelData ch) j =
          (if (⌊t * (b.sampleRate : ℚ)⌋).toNat + j < (b.getChannelData ch).length
           then sampleAt (b.getChannelData ch) ((⌊t * (b.sampleRate : ℚ)⌋).toNat + j)
           else 0) := by
  have hcond : ¬(max 0 (⌊e * (b.sampleRate : ℚ)⌋ - ⌊t * (b.sampleRate : ℚ)⌋) = 0 ∨
      (b.length : ℤ) ≤ ⌊t * (b.sampleRate : ℚ)⌋) := by
    push_neg
    exact ⟨by omega, by omega⟩
  rw [cropAudioBuffer, if_neg hcond]
  set s := ⌊t * (b.sampleRate : ℚ)⌋ with hs
  set en := ⌊e * (b.sampleRate : ℚ)⌋ with he
  refine ⟨_, rfl, ?_, ?_⟩
  · show (((max 0 (en - s)).toNat : ℕ) : ℤ) = en - s
    omega
  · intro ch j hch hj
    have hch' : ch < b.channels.length := hch
    have hj' : j < (max 0 (en - s)).toNat := hj
    show sampleAt ((b.channels.map fun src =>
        (List.range (max 0 (en - s)).toNat).map fun (k : ℕ) =>
          if s + (k : ℤ) < (src.length : ℤ) then sampleAtZ src (s + (k : ℤ)) else 0).getD ch []) j
      = _
    rw [channels_getD_map _ b.channels ch hch']
    rw [sampleAt_range_map _ _ _ hj']
    simp only [AudioBuffer.getChannelData]
    have hiff : (s + (j : ℤ) < ((b.channels.getD ch []).length : ℤ)) ↔
        (s.toNat + j < (b.channels.getD ch []).length) := by omega
    rw [if_congr hiff rfl rfl]
    by_cases hin : s.toNat + j < (b.channels.getD ch []).length
    · rw [if_pos hin, if_pos hin, sampleAtZ, if_pos (by omega : (0:ℤ) ≤ s + (j : ℤ))]
      congr 1
      omega
    · rw [if_neg hin, if_neg hin]

/-- Witness for C5 at the 10 Hz buffer cropped from 0.15 s to 0.35 s. -/
theorem crop_floor_index_slice_witness :
    ∃ c, cropAudioBuffer ⟨10, 10, [[0, 1, 2, 3, 4, 5, 6, 7, 8, 9]]⟩ (3/20) (7/20) =
        CropResult.cropped c ∧
      (c.length : ℤ) = ⌊(7/20 : ℚ) * ((10 : ℕ) : ℚ)⌋ - ⌊(3/20 : ℚ) * ((10 : ℕ) : ℚ)⌋ ∧
      ∀ ch j, ch < AudioBuffer.numberOfChannels ⟨10, 10, [[0, 1, 2, 3, 4, 5, 6, 7, 8, 9]]⟩ →
        j < c.length →
        sampleAt (c.getChannelData ch) j =
          (if (⌊(3/20 : ℚ) * ((10 : ℕ) : ℚ)⌋).toNat + j <
              (AudioBuffer.getChannelData ⟨10, 10, [[0, 1, 2, 3, 4, 5, 6, 7, 8, 9]]⟩ ch).length
           then sampleAt (AudioBuffer.getChannelData ⟨10, 10, [[0, 1, 2, 3, 4, 5, 6, 7, 8, 9]]⟩ ch)
                  ((⌊(3/20 : ℚ) * ((10 : ℕ) : ℚ)⌋).toNat + j)
           else 0) :=
  crop_floor_index_slice ⟨10, 10, [[0, 1, 2, 3, 4, 5, 6, 7, 8, 9]]⟩ (3/20) (7/20)
    (by norm_num) (by norm_num) (by norm_num)

lemma foldl_max_nonneg (l : List ℚ) : ∀ a : ℚ, 0 ≤ a → 0 ≤ l.foldl max a := by
  induction l with
  | nil => intro a ha; simpa using ha
  | cons x xs ih => intro a ha; exact ih _ (le_trans ha (le_max_left a x))

lemma foldl_max_map_mul (g : ℚ) (hg : 0 ≤ g) (l : List ℚ) :
    ∀ a : ℚ, (l.map fun x => x * g).foldl max (a * g) = l.foldl max a * g := by
  induction l with
  | nil => intro a; rfl
  | cons x xs ih =>
      intro a
      simp only [List.map_cons, List.foldl_cons]
      rw [← max_mul_of_nonneg a x hg, ih]

lemma bufferPeak_nonneg (b : AudioBuffer) : 0 ≤ bufferPeak b :=
  foldl_max_nonneg _ 0 le_rfl

/-- C7: normalization is the identity when the peak over all channels is zero
or already equals the default target ceiling 0.95; otherwise every sample is
scaled by targetCeiling / peak and the new peak is exactly the target ceiling
(the float rounding the spec tolerates is absent in the exact model). -/
theorem normalize_peak_spec (b : AudioBuffer) :
    (bufferPeak b = 0 → normalizeAudioBuffer b defaultTargetPeak = b) ∧
    (bufferPeak b = defaultTargetPeak → normalizeAudioBuffer b defaultTargetPeak = b) ∧
    (bufferPeak b ≠ 0 → bufferPeak b ≠ defaultTargetPeak →
      (∀ ch i, ch < b.numberOfChannels → i < b.length →
        sampleAt ((normalizeAudioBuffer b defaultTargetPeak).getChannelData ch) i =
          sampleAt (b.getChannelData ch) i * (defaultTargetPeak / bufferPeak b)) ∧
      bufferPeak (normalizeAudioBuffer b defaultTargetPeak) = defaultTargetPeak) := by
  refine ⟨?_, ?_, ?_⟩
  · intro h
    simp only [normalizeAudioBuffer]
    rw [if_pos (Or.inl h)]
  · intro h
    simp only [normalizeAudioBuffer]
    rw [if_pos (Or.inr h)]
  · intro h1 h2
    have hne : ¬(bufferPeak b = 0 ∨ bufferPeak b = defaultTargetPeak) := by
      push_neg
      exact ⟨h1, h2⟩
    have hg : 0 ≤ defaultTargetPeak / bufferPeak b :=
      div_nonneg (by norm_num [defaultTargetPeak]) (bufferPeak_nonneg b)
    have hN : normalizeAudioBuffer b defaultTargetPeak =
        { sampleRate := b.sampleRate
          length := b.length
          channels := b.channels.map fun src =>
            (List.range b.length).map fun i =>
              sampleAt src i * (defaultTargetPeak / bufferPeak b) } := by
      simp only [normalizeAudioBuffer]
      rw [if_neg hne]
    refine ⟨?_, ?_⟩
    · intro ch i hch hi
      rw [hN]
      simp only [AudioBuffer.getChannelData]
      rw [channels_getD_map _ b.channels ch hch, sampleAt_range_map _ _ _ hi]
    · rw [hN, bufferPeak, channelAbsList]
      simp only [List.map_map]
      have hchan : b.channels.map ((fun ch => (List.range b.length).map fun i => |sampleAt ch i|)
            ∘ (fun src => (List.range b.length).map fun i =>
                sampleAt src i * (defaultTargetPeak / bufferPeak b))) =
          (b.channels.map fun src => (List.range b.length).map fun i => |sampleAt src i|).map
            (List.map fun x => x * (defaultTargetPeak / bufferPeak b)) := by
        rw [List.map_map]
        refine List.map_congr_left fun src _ => ?_
        simp only [Function.comp_apply, List.map_map]
        refine List.map_congr_left fun i hi => ?_
        simp only [Function.comp_apply]
        rw [sampleAt_range_map _ _ _ (List.mem_range.mp hi), abs_mul,
          abs_of_nonneg hg]
      rw [hchan, ← List.map_flatten]
      have hzero : (0 : ℚ) = 0 * (defaultTargetPeak / bufferPeak b) := by ring
      rw [hzero, foldl_max_map_mul _ hg]
      have hL : ((b.channels.map fun src =>
          (List.range b.length).map fun i => |sampleAt src i|).flatten).foldl max 0 =
          bufferPeak b := rfl
      rw [hL, mul_comm, div_mul_cancel₀ _ h1]

/-- Witness for C7 at a one-sample buffer with peak 1/2. -/
theorem normalize_peak_spec_witness :
    (bufferPeak ⟨10, 1, [[1/2]]⟩ = 0 →
      normalizeAudioBuffer ⟨10, 1, [[1/2]]⟩ defaultTargetPeak = ⟨10, 1, [[1/2]]⟩) ∧
    (bufferPeak ⟨10, 1, [[1/2]]⟩ = defaultTargetPeak →
      normalizeAudioBuffer ⟨10, 1, [[1/2]]⟩ defaultTargetPeak = ⟨10, 1, [[1/2]]⟩) ∧
    (bufferPeak ⟨10, 1, [[1/2]]⟩ ≠ 0 → bufferPeak ⟨10, 1, [[1/2]]⟩ ≠ defaultTargetPeak →
      (∀ ch i, ch < AudioBuffer.numberOfChannels ⟨10, 1, [[1/2]]⟩ →
        i < AudioBuffer.length ⟨10, 1, [[1/2]]⟩ →
        sampleAt ((normalizeAudioBuffer ⟨10, 1, [[1/2]]⟩ defaultTargetPeak).getChannelData ch) i =
          sampleAt (AudioBuffer.getChannelData ⟨10, 1, [[1/2]]⟩ ch) i *
            (defaultTargetPeak / bufferPeak ⟨10, 1, [[1/2]]⟩)) ∧
      bufferPeak (normalizeAudioBuffer ⟨10, 1, [[1/2]]⟩ defaultTargetPeak) = defaultTargetPeak) :=
  normalize_peak_spec ⟨10, 1, [[1/2]]⟩

lemma wavHeader_length (a b c d e : ℕ) : (wavHeader a b c d e).length = 44 := by
  simp [wavHeader, wavHeaderPre, u32le, u16le]

lemma wavHeaderPre_length (a b c d e : ℕ) : (wavHeaderPre a b c d e).length = 40 := by
  simp [wavHeaderPre, u32le, u16le]

lemma wav_layout (numCh rate bps depth : ℕ) (pcm : List ℕ) :
    (wavHeader numCh rate bps depth pcm.length ++ pcm).length = 44 + pcm.length ∧
    ((wavHeader numCh rate bps depth pcm.length ++ pcm).drop 40).take 4 =
      u32le pcm.length := by
  constructor
  · rw [List.length_append, wavHeader_length]
  · rw [wavHeader, List.append_assoc,
      List.drop_left' (wavHeaderPre_length numCh rate bps depth pcm.length),
      List.take_left' (by simp [u32le] : (u32le pcm.length).length = 4)]

lemma flatMap_const_length (f : ℚ → List ℕ) (k : ℕ) (hf : ∀ x, (f x).length = k) :
    ∀ l : List ℚ, (l.flatMap f).length = l.length * k := by
  intro l
  induction l with
  | nil => simp
  | cons x xs ih =>
      simp only [List.flatMap_cons, List.length_append, hf, ih, List.length_cons]
      ring

lemma le32decode_u32le (v : ℕ) (h : v < 4294967296) : le32decode (u32le v) = v := by
  simp only [le32decode, u32le, List.getD_cons_zero, List.getD_cons_succ]
  omega

lemma interleave_length (b : AudioBuffer) :
    (interleave b).length = b.length * b.numberOfChannels := by
  simp [interleave]

/-- C9: for every payload and every supported bit depth (16, 24 or 32), the
WAV encoder succeeds and writes a header whose data-length field at offset 40
equals exactly the number of PCM bytes written after the 44-byte header,
namely channelCount * payloadLength * bytesPerSample, and the total output is
44 bytes plus that data length.  The decoded field value matches whenever the
data size fits the 32-bit field. -/
theorem wav_header_data_length_exact (b : AudioBuffer) (d : ℕ)
    (hd : d = 16 ∨ d = 24 ∨ d = 32) :
    ∃ bytes, audioBufferToWav b d = Except.ok bytes ∧
      bytes.length = 44 + b.numberOfChannels * b.length * (d / 8) ∧
      (bytes.drop 40).take 4 = u32le (b.numberOfChannels * b.length * (d / 8)) ∧
      (b.numberOfChannels * b.length * (d / 8) < 4294967296 →
        le32decode ((bytes.drop 40).take 4) = b.numberOfChannels * b.length * (d / 8)) := by
  rcases hd with h | h | h <;> subst h
  · have hpcm : ((interleave b).flatMap fun x => int16le (wavQuant16 x)).length
        = b.numberOfChannels * b.length * (16 / 8) := by
      rw [flatMap_const_length _ 2 (fun x => by simp [int16le, u16le]), interleave_length]
      ring_nf
    have hok : audioBufferToWav b 16 = Except.ok
        (wavHeader b.numberOfChannels b.sampleRate 2 16
          ((interleave b).flatMap fun x => int16le (wavQuant16 x)).length ++
         ((interleave b).flatMap fun x => int16le (wavQuant16 x))) := by
      simp [audioBufferToWav]
    obtain ⟨hlen, hfield⟩ := wav_layout b.numberOfChannels b.sampleRate 2 16
      ((interleave b).flatMap fun x => int16le (wavQuant16 x))
    refine ⟨_, hok, ?_, ?_, ?_⟩
    · rw [hlen, hpcm]
    · rw [hfield, hpcm]
    · intro hlt
      rw [hfield, hpcm, le32decode_u32le _ hlt]
  · have hpcm : ((interleave b).flatMap fun x => int24le (wavQuant24 x)).length
        = b.numberOfChannels * b.length * (24 / 8) := by
      rw [flatMap_const_length _ 3 (fun x => by simp [int24le]), interleave_length]
      ring_nf
    have hok : audioBufferToWav b 24 = Except.ok
        (wavHeader b.numberOfChannels b.sampleRate 3 24
          ((interleave b).flatMap fun x => int24le (wavQuant24 x)).length ++
         ((interleave b).flatMap fun x => int24le (wavQuant24 x))) := by
      simp [audioBufferToWav]
    obtain ⟨hlen, hfield⟩ := wav_layout b.numberOfChannels b.sampleRate 3 24
      ((interleave b).flatMap fun x => int24le (wavQuant24 x))
    refine ⟨_, hok, ?_, ?_, ?_⟩
    · rw [hlen, hpcm]
    · rw [hfield, hpcm]
    · intro hlt
      rw [hfield, hpcm, le32decode_u32le _ hlt]
  · have hpcm : ((interleave b).flatMap fun x => int32le (wavQuant32 x)).length
        = b.numberOfChannels * b.length * (32 / 8) := by
      rw [flatMap_const_length _ 4 (fun x => by simp [int32le, u32le]), interleave_length]
      ring_nf
    have hok : audioBufferToWav b 32 = Except.ok
        (wavHeader b.numberOfChannels b.sampleRate 4 32
          ((interleave b).flatMap fun x => int32le (wavQuant32 x)).length ++
         ((interleave b).flatMap fun x => int32le (wavQuant32 x))) := by
      simp [audioBufferToWav]
    obtain ⟨hlen, hfield⟩ := wav_layout b.numberOfChannels b.sampleRate 4 32
      ((interleave b).flatMap fun x => int32le (wavQuant32 x))
    refine ⟨_, hok, ?_, ?_, ?_⟩
    · rw [hlen, hpcm]
    · rw [hfield, hpcm]
    · intro hlt
      rw [hfield, hpcm, le32decode_u32le _ hlt]

/-- Witness for C9 at a two-channel two-frame buffer encoded at 16-bit. -/
theorem wav_header_data_length_exact_witness :
    ∃ bytes, audioBufferToWav ⟨8000, 2, [[1/2, 0], [0, 1/2]]⟩ 16 = Except.ok bytes ∧
      bytes.length = 44 + AudioBuffer.numberOfChannels ⟨8000, 2, [[1/2, 0], [0, 1/2]]⟩ *
        AudioBuffer.length ⟨8000, 2, [[1/2, 0], [0, 1/2]]⟩ * (16 / 8) ∧
      (bytes.drop 40).take 4 = u32le (AudioBuffer.numberOfChannels ⟨8000, 2, [[1/2, 0], [0, 1/2]]⟩ *
        AudioBuffer.length ⟨8000, 2, [[1/2, 0], [0, 1/2]]⟩ * (16 / 8)) ∧
      (AudioBuffer.numberOfChannels ⟨8000, 2, [[1/2, 0], [0, 1/2]]⟩ *
        AudioBuffer.length ⟨8000, 2, [[1/2, 0], [0, 1/2]]⟩ * (16 / 8) < 4294967296 →
        le32decode ((bytes.drop 40).take 4) =
          AudioBuffer.numberOfChannels ⟨8000, 2, [[1/2, 0], [0, 1/2]]⟩ *
            AudioBuffer.length ⟨8000, 2, [[1/2, 0], [0, 1/2]]⟩ * (16 / 8)) :=
  wav_header_data_length_exact ⟨8000, 2, [[1/2, 0], [0, 1/2]]⟩ 16 (Or.inl rfl)

lemma resample_length_rate (b : AudioBuffer) (t : ℕ) (h : b.sampleRate ≠ t)
    (hnz : (jround ((b.length : ℚ) * (t : ℚ) / (b.sampleRate : ℚ))).toNat ≠ 0) :
    ∃ b', resampleAudioBuffer b t = Except.ok b' ∧
      b'.length = (jround ((b.length : ℚ) * (t : ℚ) / (b.sampleRate : ℚ))).toNat ∧
      b'.sampleRate = t := by
  have hform : (b.length : ℚ) / ((b.sampleRate : ℚ) / (t : ℚ)) =
      (b.length : ℚ) * (t : ℚ) / (b.sampleRate : ℚ) := div_div_eq_mul_div _ _ _
  rw [resampleAudioBuffer, if_neg h]
  simp only [hform]
  rw [if_neg hnz]
  exact ⟨_, rfl, rfl, rfl⟩

lemma resample_zero_error (b : AudioBuffer) (t : ℕ) (h : b.sampleRate ≠ t)
    (hz : (jround ((b.length : ℚ) * (t : ℚ) / (b.sampleRate : ℚ))).toNat = 0) :
    resampleAudioBuffer b t = Except.error "NotSupportedError" := by
  have hform : (b.length : ℚ) / ((b.sampleRate : ℚ) / (t : ℚ)) =
      (b.length : ℚ) * (t : ℚ) / (b.sampleRate : ℚ) := div_div_eq_mul_div _ _ _
  rw [resampleAudioBuffer, if_neg h]
  simp only [hform]
  rw [if_pos hz]

lemma jround_le (x : ℚ) : (jround x : ℚ) ≤ x + 1/2 := Int.floor_le _

lemma lt_jround (x : ℚ) : x - 1/2 < (jround x : ℚ) := by
  have h := Int.lt_floor_add_one (x + 1/2)
  rw [jround]
  push_cast at h ⊢
  linarith

lemma jround_nonneg (x : ℚ) (hx : 0 ≤ x) : 0 ≤ jround x := by
  rw [jround]
  exact Int.le_floor.mpr (by push_cast; linarith)

lemma jround_pos (x : ℚ) (hx : 1/2 ≤ x) : 1 ≤ jround x := by
  rw [jround]
  exact Int.le_floor.mpr (by push_cast; linarith)

/-- C4 counterexample: an 18-frame payload at 96 kHz resampled to 8 kHz gets
round(18/12) = 2 frames, and resampling back to 96 kHz gives
round(2 * 12) = 24 frames, a deviation of 6 samples: the round trip does not
preserve length to within one sample for every valid pair of positive rates.
Heavier downsampling does not even yield a payload: a 5-frame payload at
96 kHz rounds to 0 frames and the zero-frame createBuffer call throws
NotSupportedError. -/
theorem resample_roundtrip_length_cex :
    ((resampleAudioBuffer ⟨96000, 18, [List.replicate 18 0]⟩ 8000).bind
        fun b1 => resampleAudioBuffer b1 96000).map AudioBuffer.length = Except.ok 24 ∧
    AudioBuffer.length ⟨96000, 18, [List.replicate 18 0]⟩ = 18 ∧
    ¬(|(24 : ℤ) - (18 : ℤ)| ≤ 1) ∧
    resampleAudioBuffer ⟨96000, 5, [[0, 0, 0, 0, 0]]⟩ 8000 =
      Except.error "NotSupportedError" := by
  refine ⟨?_, rfl, by decide, ?_⟩
  · obtain ⟨b1, hok1, hlen1, hr1⟩ :=
      resample_length_rate ⟨96000, 18, [List.replicate 18 0]⟩ 8000
        (by decide) (by norm_num [jround])
    have hlen1' : b1.length = 2 := by
      rw [hlen1]
      norm_num [jround]
      decide
    have hne2 : b1.sampleRate ≠ 96000 := by
      rw [hr1]
      decide
    obtain ⟨b2, hok2, hlen2, -⟩ := resample_length_rate b1 96000 hne2
      (by rw [hlen1', hr1]; norm_num [jround])
    have hlen2' : b2.length = 24 := by
      rw [hlen2, hlen1', hr1]
      norm_num [jround]
      decide
    rw [hok1]
    show (resampleAudioBuffer b1 96000).map AudioBuffer.length = Except.ok 24
    rw [hok2]
    show Except.ok b2.length = Except.ok 24
    rw [hlen2']
  · exact resample_zero_error _ _ (by decide) (by norm_num [jround])

/-- C4 amended: for every nonempty payload and positive rates with
sourceRate at most 2 * targetRate (no downsampling past half the rate), both
resampling steps succeed - the computed frame counts stay positive, so the
zero-frame createBuffer error is never hit - and the round trip preserves the
frame count to within one sample; outside that regime the deviation can
exceed one sample, and heavy downsampling can even compute a zero frame
count, where the code throws at createBuffer. -/
theorem resample_roundtrip_length_bound (b : AudioBuffer) (t : ℕ)
    (hs : 0 < b.sampleRate) (ht : 0 < t) (hL : 0 < b.length)
    (hratio : b.sampleRate ≤ 2 * t) :
    ∃ b1 b2, resampleAudioBuffer b t = Except.ok b1 ∧
      resampleAudioBuffer b1 b.sampleRate = Except.ok b2 ∧
      |(b2.length : ℤ) - (b.length : ℤ)| ≤ 1 := by
  by_cases heq : b.sampleRate = t
  · have h1 : resampleAudioBuffer b t = Except.ok b := by
      rw [resampleAudioBuffer, if_pos heq]
    have h2 : resampleAudioBuffer b b.sampleRate = Except.ok b := by
      rw [resampleAudioBuffer, if_pos rfl]
    exact ⟨b, b, h1, h2, by simp⟩
  · have hspos : (0 : ℚ) < (b.sampleRate : ℚ) := by exact_mod_cast hs
    have htpos : (0 : ℚ) < (t : ℚ) := by exact_mod_cast ht
    have hL1 : (1 : ℚ) ≤ (b.length : ℚ) := by exact_mod_cast hL
    have hsle : (b.sampleRate : ℚ) ≤ 2 * (t : ℚ) := by
      have h2t : ((b.sampleRate : ℕ) : ℚ) ≤ ((2 * t : ℕ) : ℚ) := by exact_mod_cast hratio
      push_cast at h2t
      linarith
    have hLt : (t : ℚ) ≤ (b.length : ℚ) * (t : ℚ) := by nlinarith
    have hq1half : (1 : ℚ)/2 ≤ (b.length : ℚ) * (t : ℚ) / (b.sampleRate : ℚ) := by
      rw [le_div_iff₀ hspos]
      linarith
    have hj1one : 1 ≤ jround ((b.length : ℚ) * (t : ℚ) / (b.sampleRate : ℚ)) :=
      jround_pos _ hq1half
    obtain ⟨b1, hok1, hlen1, hr1⟩ := resample_length_rate b t heq (by omega)
    have hne2 : b1.sampleRate ≠ b.sampleRate := by
      rw [hr1]
      exact fun hh => heq hh.symm
    have hj1nn : 0 ≤ jround ((b.length : ℚ) * (t : ℚ) / (b.sampleRate : ℚ)) := by omega
    have hcast1 : ((b1.length : ℕ) : ℚ) =
        ((jround ((b.length : ℚ) * (t : ℚ) / (b.sampleRate : ℚ)) : ℤ) : ℚ) := by
      rw [hlen1]
      exact_mod_cast Int.toNat_of_nonneg hj1nn
    have hd2 : (b.length : ℚ) * (t : ℚ) / (b.sampleRate : ℚ) - 1/2 <
        ((jround ((b.length : ℚ) * (t : ℚ) / (b.sampleRate : ℚ)) : ℤ) : ℚ) :=
      lt_jround _
    have hq1s : ((b.length : ℚ) * (t : ℚ) / (b.sampleRate : ℚ)) * (b.sampleRate : ℚ) =
        (b.length : ℚ) * (t : ℚ) := div_mul_cancel₀ _ hspos.ne'
    have hq2half : (1 : ℚ)/2 ≤ (b1.length : ℚ) * (b.sampleRate : ℚ) / (b1.sampleRate : ℚ) := by
      rw [hr1, hcast1, le_div_iff₀ htpos]
      by_cases hst : (t : ℚ) ≤ (b.sampleRate : ℚ)
      · have hj1Q : (1 : ℚ) ≤
            ((jround ((b.length : ℚ) * (t : ℚ) / (b.sampleRate : ℚ)) : ℤ) : ℚ) := by
          exact_mod_cast hj1one
        nlinarith
      · push_neg at hst
        have hmul := mul_lt_mul_of_pos_right hd2 hspos
        rw [sub_mul, hq1s] at hmul
        nlinarith
    have hj2one : 1 ≤ jround ((b1.length : ℚ) * (b.sampleRate : ℚ) / (b1.sampleRate : ℚ)) :=
      jround_pos _ hq2half
    obtain ⟨b2, hok2, hlen2, -⟩ := resample_length_rate b1 b.sampleRate hne2 (by omega)
    refine ⟨b1, b2, hok1, hok2, ?_⟩
    have hq2eq : (b1.length : ℚ) * (b.sampleRate : ℚ) / (b1.sampleRate : ℚ) =
        ((jround ((b.length : ℚ) * (t : ℚ) / (b.sampleRate : ℚ)) : ℤ) : ℚ) *
          (b.sampleRate : ℚ) / (t : ℚ) := by
      rw [hr1, hcast1]
    rw [hlen2, hq2eq]
    have hq2 : 0 ≤ ((jround ((b.length : ℚ) * (t : ℚ) / (b.sampleRate : ℚ)) : ℤ) : ℚ) *
        (b.sampleRate : ℚ) / (t : ℚ) := by
      have hj1c : (0 : ℚ) ≤
          ((jround ((b.length : ℚ) * (t : ℚ) / (b.sampleRate : ℚ)) : ℤ) : ℚ) := by
        exact_mod_cast hj1nn
      positivity
    have hj2 : 0 ≤ jround (((jround ((b.length : ℚ) * (t : ℚ) / (b.sampleRate : ℚ)) : ℤ) : ℚ) *
        (b.sampleRate : ℚ) / (t : ℚ)) := jround_nonneg _ hq2
    have hj2n : (((jround (((jround ((b.length : ℚ) * (t : ℚ) / (b.sampleRate : ℚ)) : ℤ) : ℚ) *
        (b.sampleRate : ℚ) / (t : ℚ))).toNat : ℕ) : ℤ) =
        jround (((jround ((b.length : ℚ) * (t : ℚ) / (b.sampleRate : ℚ)) : ℤ) : ℚ) *
          (b.sampleRate : ℚ) / (t : ℚ)) := Int.toNat_of_nonneg hj2
    rw [hj2n]
    have hst : (0 : ℚ) < (b.sampleRate : ℚ) / (t : ℚ) := div_pos hspos htpos
    have hs2 : (b.sampleRate : ℚ) / (t : ℚ) ≤ 2 := by
      rw [div_le_iff₀ htpos]
      linarith
    have hd1 : ((jround ((b.length : ℚ) * (t : ℚ) / (b.sampleRate : ℚ)) : ℤ) : ℚ) -
        (b.length : ℚ) * (t : ℚ) / (b.sampleRate : ℚ) ≤ 1/2 := by
      have := jround_le ((b.length : ℚ) * (t : ℚ) / (b.sampleRate : ℚ))
      linarith
    have hd2' : -(1/2) < ((jround ((b.length : ℚ) * (t : ℚ) / (b.sampleRate : ℚ)) : ℤ) : ℚ) -
        (b.length : ℚ) * (t : ℚ) / (b.sampleRate : ℚ) := by
      linarith
    have hqL : ((b.length : ℚ) * (t : ℚ) / (b.sampleRate : ℚ)) *
        ((b.sampleRate : ℚ) / (t : ℚ)) = (b.length : ℚ) := by
      field_simp
    have hq2L : ((jround ((b.length : ℚ) * (t : ℚ) / (b.sampleRate : ℚ)) : ℤ) : ℚ) *
          (b.sampleRate : ℚ) / (t : ℚ) - (b.length : ℚ) =
        (((jround ((b.length : ℚ) * (t : ℚ) / (b.sampleRate : ℚ)) : ℤ) : ℚ) -
          (b.length : ℚ) * (t : ℚ) / (b.sampleRate : ℚ)) *
          ((b.sampleRate : ℚ) / (t : ℚ)) := by
      rw [sub_mul, hqL]
      ring
    have hup : ((jround ((b.length : ℚ) * (t : ℚ) / (b.sampleRate : ℚ)) : ℤ) : ℚ) *
        (b.sampleRate : ℚ) / (t : ℚ) - (b.length : ℚ) ≤
          (1/2) * ((b.sampleRate : ℚ) / (t : ℚ)) := by
      rw [hq2L]
      exact mul_le_mul_of_nonneg_right hd1 (le_of_lt hst)
    have hdown : -((1/2) * ((b.sampleRate : ℚ) / (t : ℚ))) <
        ((jround ((b.length : ℚ) * (t : ℚ) / (b.sampleRate : ℚ)) : ℤ) : ℚ) *
          (b.sampleRate : ℚ) / (t : ℚ) - (b.length : ℚ) := by
      rw [hq2L]
      have := mul_lt_mul_of_pos_right hd2' hst
      linarith
    have hj2up : ((jround (((jround ((b.length : ℚ) * (t : ℚ) / (b.sampleRate : ℚ)) : ℤ) : ℚ) *
        (b.sampleRate : ℚ) / (t : ℚ)) : ℤ) : ℚ) ≤
        ((jround ((b.length : ℚ) * (t : ℚ) / (b.sampleRate : ℚ)) : ℤ) : ℚ) *
          (b.sampleRate : ℚ) / (t : ℚ) + 1/2 := jround_le _
    have hj2down : ((jround ((b.length : ℚ) * (t : ℚ) / (b.sampleRate : ℚ)) : ℤ) : ℚ) *
        (b.sampleRate : ℚ) / (t : ℚ) - 1/2 <
        ((jround (((jround ((b.length : ℚ) * (t : ℚ) / (b.sampleRate : ℚ)) : ℤ) : ℚ) *
          (b.sampleRate : ℚ) / (t : ℚ)) : ℤ) : ℚ) := lt_jround _
    have hzq1 : ((jround (((jround ((b.length : ℚ) * (t : ℚ) / (b.sampleRate : ℚ)) : ℤ) : ℚ) *
        (b.sampleRate : ℚ) / (t : ℚ)) - (b.length : ℤ) : ℤ) : ℚ) < 2 := by
      push_cast
      linarith
    have hzq2 : (-2 : ℚ) <
        ((jround (((jround ((b.length : ℚ) * (t : ℚ) / (b.sampleRate : ℚ)) : ℤ) : ℚ) *
          (b.sampleRate : ℚ) / (t : ℚ)) - (b.length : ℤ) : ℤ) : ℚ) := by
      push_cast
      linarith
    have hz1 : jround (((jround ((b.length : ℚ) * (t : ℚ) / (b.sampleRate : ℚ)) : ℤ) : ℚ) *
        (b.sampleRate : ℚ) / (t : ℚ)) - (b.length : ℤ) < 2 := by exact_mod_cast hzq1
    have hz2 : (-2 : ℤ) <
        jround (((jround ((b.length : ℚ) * (t : ℚ) / (b.sampleRate : ℚ)) : ℤ) : ℚ) *
          (b.sampleRate : ℚ) / (t : ℚ)) - (b.length : ℤ) := by exact_mod_cast hzq2
    rw [abs_le]
    omega

/-- Witness for C4: a 10-frame payload at 3 Hz resampled to 2 Hz and back. -/
theorem resample_roundtrip_length_bound_witness :
    ∃ b1 b2, resampleAudioBuffer ⟨3, 10, [[0, 0, 0, 0, 0, 0, 0, 0, 0, 0]]⟩ 2 =
        Except.ok b1 ∧
      resampleAudioBuffer b1
        (AudioBuffer.sampleRate ⟨3, 10, [[0, 0, 0, 0, 0, 0, 0, 0, 0, 0]]⟩) = Except.ok b2 ∧
      |(b2.length : ℤ) - (AudioBuffer.length ⟨3, 10, [[0, 0, 0, 0, 0, 0, 0, 0, 0, 0]]⟩ : ℤ)| ≤ 1 :=
  resample_roundtrip_length_bound ⟨3, 10, [[0, 0, 0, 0, 0, 0, 0, 0, 0, 0]]⟩ 2
    (by decide) (by decide) (by decide) (by decide)
